import Mathlib

/-
Verification of the Quanto.tradeBOT market-making system.

The development shallowly embeds the decision/reconciliation core of the
two Python source files:
  * ox_marketmaker_.py   — per-instrument order-lifecycle decision engine
    (class MultiCoinMarketMaker);
  * ox_dynamic_websocket_.py — dynamic universe selection
    (class OXDynamicWebSocketClient, method select_coins) and the JSON
    hand-off file format.

Python floats are modelled as exact rationals (ℚ); a JSON/dict field that
may be absent or None is an Option; Python truthiness of a numeric field
(`coin_data.get('bestAsk')` is falsy for both a missing key, None and 0)
is the predicate `truthy` below.
-/

/-- Side of an order, as classified by `order.get('side','').upper()` in
check_multiple_orders_same_side: exactly the strings "BUY" and "SELL" are
recognised, anything else falls through both branches. -/
inductive Side where
  | BUY
  | SELL
  | OTHER
deriving DecidableEq, Repr

/-- A working order as reported by the exchange: only the market code and
the side are inspected by the decision engine. -/
structure WOrder where
  marketCode : String
  side : Side
deriving DecidableEq, Repr

/-- Per-instrument market snapshot as read by the market maker from the
hand-off file: best ask, best bid and index price, each possibly absent
(None in the JSON). -/
structure CoinData where
  bestAsk : Option ℚ
  bestBid : Option ℚ
  indexPrice : Option ℚ
deriving DecidableEq, Repr

/-- Python truthiness of an optional numeric field: `coin_data.get(k)` is
falsy when the key is missing, None, or the value is 0. -/
def truthy : Option ℚ → Bool
  | none => false
  | some x => decide (x ≠ 0)

/-- Reading a field as `float(coin_data[k])`; the call sites in the source
only reach this after a truthiness guard, so the default 0 for an absent
field is never observable on those paths. -/
def fval (o : Option ℚ) : ℚ := o.getD 0

/-- The configuration dictionary of MultiCoinMarketMaker (the fields the
decision engine reads). -/
structure Config where
  min_spread_threshold : ℚ
  min_distance_from_index : ℚ
  order_value_usd : ℚ
  tick_size : ℚ
deriving DecidableEq, Repr

/-- Configuration as set in MultiCoinMarketMaker.__init__. -/
def initConfig : Config :=
  { min_spread_threshold := 0.007
    min_distance_from_index := 0.004
    order_value_usd := 5.5
    tick_size := 0.001 }

/-- Configuration after the maker.config.update(...) call in main():
min_spread_threshold is lowered to 0.6%. -/
def runConfig : Config :=
  { min_spread_threshold := 0.006
    min_distance_from_index := 0.004
    order_value_usd := 5.5
    tick_size := 0.001 }

/-- calculate_spread_percentage: 0.0 when bestAsk or bestBid is falsy,
otherwise (ask − bid) / mid, guarding mid > 0. -/
def calculate_spread_percentage (c : CoinData) : ℚ :=
  if ¬ (truthy c.bestAsk && truthy c.bestBid) then 0
  else
    let best_ask := fval c.bestAsk
    let best_bid := fval c.bestBid
    let mid_price := (best_ask + best_bid) / 2
    let spread := best_ask - best_bid
    if mid_price > 0 then spread / mid_price else 0

/-- calculate_distance_from_index: |price − index| / index, 0.0 when the
index is not positive. -/
def calculate_distance_from_index (price index_price : ℚ) : ℚ :=
  if index_price ≤ 0 then 0
  else |price - index_price| / index_price

/-- check_multiple_orders_same_side: count the working orders of this
market by side; true iff more than one BUY or more than one SELL. -/
def check_multiple_orders_same_side (market_code : String)
    (working_orders : List WOrder) : Bool :=
  if working_orders.isEmpty then false
  else
    let buy_count := working_orders.countP
      (fun o => decide (o.marketCode = market_code ∧ o.side = Side.BUY))
    let sell_count := working_orders.countP
      (fun o => decide (o.marketCode = market_code ∧ o.side = Side.SELL))
    decide (buy_count > 1 ∨ sell_count > 1)

/-- should_cancel_orders_due_to_narrow_spread: never when a position is
held (has_position); otherwise iff the spread is below the threshold. -/
def should_cancel_orders_due_to_narrow_spread (cfg : Config) (position : ℚ)
    (c : CoinData) : Bool :=
  if position ≠ 0 then false
  else decide (calculate_spread_percentage c < cfg.min_spread_threshold)

/-- should_make_market: requires bestAsk, bestBid and indexPrice all
truthy, spread at or above the threshold, and at least one side further
than min_distance_from_index from the index price. -/
def should_make_market (cfg : Config) (c : CoinData) : Bool :=
  if ¬ (truthy c.bestAsk && truthy c.bestBid && truthy c.indexPrice) then false
  else if calculate_spread_percentage c < cfg.min_spread_threshold then false
  else
    let best_ask := fval c.bestAsk
    let best_bid := fval c.bestBid
    let index_price := fval c.indexPrice
    let ask_distance := calculate_distance_from_index best_ask index_price
    let bid_distance := calculate_distance_from_index best_bid index_price
    decide (ask_distance > cfg.min_distance_from_index ∨
            bid_distance > cfg.min_distance_from_index)

/-- calculate_order_quantity: 0.0 for a non-positive price, otherwise
order_value_usd / price truncated downward to three decimal places
(Decimal quantize '0.001' with ROUND_DOWN; the value is non-negative on
every call path, where ROUND_DOWN coincides with floor). -/
def calculate_order_quantity (cfg : Config) (price : ℚ) : ℚ :=
  if price ≤ 0 then 0
  else
    let quantity := cfg.order_value_usd / price
    (⌊quantity * 1000⌋ : ℚ) / 1000

/-- calculate_market_making_prices: returns the optional buy price (one
tick above the bid, only when the bid is far from the index) and the
optional sell price (one tick below the ask, only when the ask is far
from the index); a tick is touch price × tick_size. -/
def calculate_market_making_prices (cfg : Config) (c : CoinData) :
    Option ℚ × Option ℚ :=
  let best_ask := fval c.bestAsk
  let best_bid := fval c.bestBid
  let index_price := fval c.indexPrice
  let ask_distance := calculate_distance_from_index best_ask index_price
  let bid_distance := calculate_distance_from_index best_bid index_price
  ((if bid_distance > cfg.min_distance_from_index
      then some (best_bid + best_bid * cfg.tick_size) else none),
   (if ask_distance > cfg.min_distance_from_index
      then some (best_ask - best_ask * cfg.tick_size) else none))

/-- An order submitted to place_oxfun_order by the decision engine. -/
structure PlacedOrder where
  side : Side
  price : ℚ
  quantity : ℚ
deriving DecidableEq, Repr

/-- place_closing_order: when a nonzero position is held, one order on the
opposite side at the touch (SELL at best bid for a long, BUY at best ask
for a short), quantity the absolute position size; no order otherwise. -/
def place_closing_order (c : CoinData) (position : ℚ) : List PlacedOrder :=
  if position = 0 then []
  else if position > 0 then [⟨Side.SELL, fval c.bestBid, |position|⟩]
  else [⟨Side.BUY, fval c.bestAsk, |position|⟩]

/-- place_market_making_orders: with a position, delegate to
place_closing_order; otherwise place each side whose price was computed
and whose quantity is strictly positive. -/
def place_market_making_orders (cfg : Config) (c : CoinData)
    (position : ℚ) : List PlacedOrder :=
  if position ≠ 0 then place_closing_order c position
  else
    let prices := calculate_market_making_prices cfg c
    let buys : List PlacedOrder :=
      match prices.1 with
      | some bp =>
          let buy_quantity := calculate_order_quantity cfg bp
          if buy_quantity > 0 then [⟨Side.BUY, bp, buy_quantity⟩] else []
      | none => []
    let sells : List PlacedOrder :=
      match prices.2 with
      | some sp =>
          let sell_quantity := calculate_order_quantity cfg sp
          if sell_quantity > 0 then [⟨Side.SELL, sp, sell_quantity⟩] else []
      | none => []
    buys ++ sells

/-- The per-cycle action of manage_coin_orders for one instrument. -/
inductive Decision where
  | cancelAll
  | skip
  | place (orders : List PlacedOrder)
deriving DecidableEq, Repr

/-- manage_coin_orders: first duplicate same-side orders (cancel all),
then the narrow-spread cancel, then the should_make_market gate (skip),
otherwise cancel-then-replace with the freshly computed orders. -/
def manage_coin_orders (cfg : Config) (working_orders : List WOrder)
    (market_code : String) (c : CoinData) (position : ℚ) : Decision :=
  if check_multiple_orders_same_side market_code working_orders then
    Decision.cancelAll
  else if should_cancel_orders_due_to_narrow_spread cfg position c then
    Decision.cancelAll
  else if ¬ should_make_market cfg c then
    Decision.skip
  else
    Decision.place (place_market_making_orders cfg c position)

/-
Universe selection (ox_dynamic_websocket_.py, OXDynamicWebSocketClient.select_coins).
The data_store is a Python dict (insertion-ordered), modelled as an
association list; coins_with_positions is a Python set of market codes,
modelled as a duplicate-free list in some iteration order.
-/

/-- The two data_store fields select_coins reads for one coin. -/
structure WSCoin where
  spread_perc : Option ℚ
  volume24h : Option ℚ
deriving DecidableEq, Repr

/-- An entry of the eligible_coins list built by select_coins. -/
structure EligibleCoin where
  market_code : String
  spread_perc : ℚ
  volume24h : ℚ
deriving DecidableEq, Repr

/-- The for-loop of select_coins: starting from the coins with positions,
append ranked eligible coins not already selected while the selection is
shorter than max_coins. -/
def selectLoop (max_coins : ℕ) : List String → List String → List String
  | selected, [] => selected
  | selected, c :: cs =>
      if c ∉ selected ∧ selected.length < max_coins then
        selectLoop max_coins (selected ++ [c]) cs
      else
        selectLoop max_coins selected cs

/-- select_coins: filter coins with known spread and volume and spread
above min_spread_percent, rank them by 24h volume descending (stable
sort), then start from the coins holding positions and append ranked
coins up to max_coins. -/
def select_coins (data_store : List (String × WSCoin))
    (coins_with_positions : List String) (max_coins : ℕ)
    (min_spread_percent : ℚ) : List String :=
  let eligible_coins : List EligibleCoin :=
    (data_store.filter (fun kv =>
        kv.2.spread_perc.isSome && kv.2.volume24h.isSome &&
        decide (kv.2.spread_perc.getD 0 > min_spread_percent))).map
      (fun kv => ⟨kv.1, kv.2.spread_perc.getD 0, kv.2.volume24h.getD 0⟩)
  let ranked := eligible_coins.mergeSort
    (fun a b => decide (a.volume24h ≥ b.volume24h))
  selectLoop max_coins coins_with_positions (ranked.map (·.market_code))

/-
The market-data hand-off file (load_market_data in ox_marketmaker_.py).
The JSON value read from the file is modelled by RVal; the file system
state visible to one load call is a FileView; the two instance fields the
method reads and writes (last_file_modified, last_market_data) form the
LoaderState.
-/

/-- A parsed JSON value, to the depth load_market_data inspects it. -/
inductive RVal where
  | vnull
  | vbool (b : Bool)
  | vnum (q : ℚ)
  | vstr (s : String)
  | vlist (xs : List RVal)
  | vdict (entries : List (String × RVal))

/-- Python truthiness of a JSON value (used for coin_data.get('last_updated')). -/
def pytruthy : RVal → Bool
  | RVal.vnull => false
  | RVal.vbool b => b
  | RVal.vnum q => decide (q ≠ 0)
  | RVal.vstr s => decide (s ≠ "")
  | RVal.vlist xs => ¬ xs.isEmpty
  | RVal.vdict es => ¬ es.isEmpty

/-- Dictionary lookup (dict keys are unique; first match suffices). -/
def dlookup (es : List (String × RVal)) (k : String) : Option RVal :=
  (es.find? (fun kv => kv.1 = k)).map (·.2)

/-- The filtering loop at the end of load_market_data: keep entries whose
value is a dict with a truthy 'last_updated' field. -/
def filterCoins (entries : List (String × RVal)) : List (String × RVal) :=
  entries.filter (fun kv =>
    match kv.2 with
    | RVal.vdict d => pytruthy ((dlookup d "last_updated").getD RVal.vnull)
    | _ => false)

/-- The mutable fields of MultiCoinMarketMaker that load_market_data
reads and writes. -/
structure LoaderState where
  last_file_modified : ℤ
  last_market_data : Option (List (String × RVal))

/-- What reading and parsing the hand-off file yields: a parse failure
(json.load raised) or a parsed value. -/
inductive FileContent where
  | unparsable
  | parsed (v : RVal)

/-- The file as seen by one load_market_data call: absent, or present
with a modification time and content. -/
inductive FileView where
  | absent
  | present (mtime : ℤ) (content : FileContent)

/-- load_market_data: returns None when the file is absent; returns the
cached data without re-reading when the modification time has not
advanced; catches parse failures (returning None, before the mtime cache
is updated); recognises the new format (a dict with a 'data' key) and
the old format (a dict whose first value is a dict containing 'bestAsk');
any other shape is an unknown format and yields None. Every branch
returns; the surrounding try:...except returns None on any error, so the
embedding is a total function. -/
def load_market_data (s : LoaderState) (f : FileView) :
    Option (List (String × RVal)) × LoaderState :=
  match f with
  | FileView.absent => (none, s)
  | FileView.present mtime content =>
      if mtime ≤ s.last_file_modified then (s.last_market_data, s)
      else
        match content with
        | FileContent.unparsable => (none, s)
        | FileContent.parsed v =>
            let s1 : LoaderState := { s with last_file_modified := mtime }
            match v with
            | RVal.vdict es =>
                match dlookup es "data" with
                | some (RVal.vdict ds) =>
                    let fd := filterCoins ds
                    (some fd, { s1 with last_market_data := some fd })
                | some _ =>
                    -- raw_data['data'] is not a dict: .items() raises,
                    -- caught by the except clause
                    (none, s1)
                | none =>
                    match es.head? with
                    | some (k0, RVal.vdict d0) =>
                        if k0 ≠ "" ∧ (dlookup d0 "bestAsk").isSome then
                          let fd := filterCoins es
                          (some fd, { s1 with last_market_data := some fd })
                        else (none, s1)
                    | some _ => (none, s1)
                    | none => (none, s1)
            | _ => (none, s1)

/- Concrete inputs used by witnesses and counterexamples. -/

/-- The snapshot of the worked example in the spec. -/
def exCoin : CoinData := ⟨some 101, some 99, some 100⟩

/-- A usable snapshot whose spread (0.1/99.95 ≈ 0.1%) is below the 0.6%
quoting threshold. -/
def narrowCoin : CoinData := ⟨some 100, some (999/10), some 100⟩

/-- The snapshot of the spec's narrow-spread example scenario: spread
exactly 0.3% of mid. -/
def c4Coin : CoinData := ⟨some (10015/100), some (9985/100), some 100⟩

/- Helper lemmas about the selection loop. -/

theorem selectLoop_mem_of_mem (max_coins : ℕ) (cs : List String) :
    ∀ (selected : List String) (x : String), x ∈ selected →
      x ∈ selectLoop max_coins selected cs := by
  induction cs with
  | nil => intro selected x hx; simpa [selectLoop] using hx
  | cons c cs ih =>
      intro selected x hx
      unfold selectLoop
      split
      · exact ih _ _ (List.mem_append_left _ hx)
      · exact ih _ _ hx

theorem selectLoop_length_le (max_coins : ℕ) (cs : List String) :
    ∀ selected : List String,
      (selectLoop max_coins selected cs).length ≤
        Nat.max selected.length max_coins := by
  induction cs with
  | nil => intro selected; simp [selectLoop]
  | cons c cs ih =>
      intro selected
      unfold selectLoop
      split
      · rename_i h
        have h2 := ih (selected ++ [c])
        simp only [List.length_append, List.length_singleton] at h2
        have hA : Nat.max (selected.length + 1) max_coins = max_coins :=
          Nat.max_eq_right h.2
        rw [hA] at h2
        exact le_trans h2 (Nat.le_max_right _ _)
      · exact ih selected

theorem selectLoop_nodup (max_coins : ℕ) (cs : List String) :
    ∀ selected : List String, selected.Nodup →
      (selectLoop max_coins selected cs).Nodup := by
  induction cs with
  | nil => intro selected h; simpa [selectLoop] using h
  | cons c cs ih =>
      intro selected h
      unfold selectLoop
      split
      · rename_i hc
        exact ih _ (by simp [List.nodup_append, h, hc.1])
      · exact ih _ h

/- Claim theorems. -/

/-- C1: whenever the open working orders of an instrument contain more
than one order on the same side, manage_coin_orders decides CANCEL_ALL,
whatever the snapshot, the position and the configuration are; in
particular no quote and no closing order is placed that cycle. -/
theorem claim_C1 (cfg : Config) (working_orders : List WOrder)
    (market_code : String) (c : CoinData) (position : ℚ)
    (h : check_multiple_orders_same_side market_code working_orders = true) :
    manage_coin_orders cfg working_orders market_code c position =
      Decision.cancelAll := by
  simp [manage_coin_orders, h]

/-- Witness for C1: two BUY orders on the same market trigger CANCEL_ALL
on the worked-example snapshot. -/
theorem witness_C1 :
    check_multiple_orders_same_side "A-USD-SWAP-LIN"
        [⟨"A-USD-SWAP-LIN", Side.BUY⟩, ⟨"A-USD-SWAP-LIN", Side.BUY⟩] = true ∧
    manage_coin_orders runConfig
        [⟨"A-USD-SWAP-LIN", Side.BUY⟩, ⟨"A-USD-SWAP-LIN", Side.BUY⟩]
        "A-USD-SWAP-LIN" exCoin 0 = Decision.cancelAll :=
  ⟨by decide,
   claim_C1 runConfig _ "A-USD-SWAP-LIN" exCoin 0 (by decide)⟩

/-- C2: every pinned instrument (nonzero position) is a member of the
selection returned by select_coins, for every data store, cap and
eligibility threshold — including when its snapshot has no spread or
volume data or a spread at or below the threshold. -/
theorem claim_C2 (data_store : List (String × WSCoin))
    (coins_with_positions : List String) (max_coins : ℕ)
    (min_spread_percent : ℚ) (i : String)
    (hi : i ∈ coins_with_positions) :
    i ∈ select_coins data_store coins_with_positions max_coins
        min_spread_percent := by
  unfold select_coins
  exact selectLoop_mem_of_mem _ _ _ _ hi

/-- Witness for C2: a pinned coin whose snapshot has no spread or volume
data is still selected. -/
theorem witness_C2 :
    "PIN-USD-SWAP-LIN" ∈ ["PIN-USD-SWAP-LIN"] ∧
    "PIN-USD-SWAP-LIN" ∈
      select_coins [("PIN-USD-SWAP-LIN", ⟨none, none⟩)]
        ["PIN-USD-SWAP-LIN"] 7 (7/10) :=
  ⟨by decide,
   claim_C2 [("PIN-USD-SWAP-LIN", ⟨none, none⟩)] ["PIN-USD-SWAP-LIN"] 7
     (7/10) "PIN-USD-SWAP-LIN" (by decide)⟩

/-- C5: non-pinned additions never exceed the remaining capacity: with
the pinned set duplicate-free, the selection new returned by select_coins
satisfies |new − pinned| ≤ max_coins − |pinned ∩ new| (natural-number
subtraction; when the pinned set alone is at or over the cap nothing is
added at all). -/
theorem claim_C5 (data_store : List (String × WSCoin))
    (coins_with_positions : List String) (max_coins : ℕ)
    (min_spread_percent : ℚ) (hnd : coins_with_positions.Nodup) :
    ((select_coins data_store coins_with_positions max_coins
        min_spread_percent).toFinset \ coins_with_positions.toFinset).card ≤
      max_coins - (coins_with_positions.toFinset ∩
        (select_coins data_store coins_with_positions max_coins
          min_spread_percent).toFinset).card := by
  have hsub : ∀ x ∈ coins_with_positions,
      x ∈ select_coins data_store coins_with_positions max_coins
        min_spread_percent := by
    intro x hx
    exact claim_C2 data_store coins_with_positions max_coins
      min_spread_percent x hx
  have hnodup : (select_coins data_store coins_with_positions max_coins
      min_spread_percent).Nodup := by
    unfold select_coins
    exact selectLoop_nodup _ _ _ hnd
  have hlen : (select_coins data_store coins_with_positions max_coins
      min_spread_percent).length ≤
        Nat.max coins_with_positions.length max_coins := by
    unfold select_coins
    exact selectLoop_length_le _ _ _
  have hPN : coins_with_positions.toFinset ⊆
      (select_coins data_store coins_with_positions max_coins
        min_spread_percent).toFinset := by
    intro x hx
    rw [List.mem_toFinset] at hx ⊢
    exact hsub x hx
  rw [Finset.inter_eq_left.mpr hPN, Finset.card_sdiff hPN,
    List.toFinset_card_of_nodup hnodup, List.toFinset_card_of_nodup hnd]
  rcases Nat.le_total coins_with_positions.length max_coins with h | h
  · have hx : Nat.max coins_with_positions.length max_coins = max_coins :=
      Nat.max_eq_right h
    rw [hx] at hlen
    omega
  · have hx : Nat.max coins_with_positions.length max_coins =
        coins_with_positions.length := Nat.max_eq_left h
    rw [hx] at hlen
    omega

/-- Witness for C5: two pinned coins plus one eligible candidate respect
the capacity bound. -/
theorem witness_C5 :
    (["P1-USD-SWAP-LIN", "P2-USD-SWAP-LIN"] : List String).Nodup ∧
    ((select_coins [("E1-USD-SWAP-LIN", ⟨some 1, some 100⟩)]
        ["P1-USD-SWAP-LIN", "P2-USD-SWAP-LIN"] 7 (7/10)).toFinset \
      (["P1-USD-SWAP-LIN", "P2-USD-SWAP-LIN"] : List String).toFinset).card ≤
      7 - ((["P1-USD-SWAP-LIN", "P2-USD-SWAP-LIN"] : List String).toFinset ∩
        (select_coins [("E1-USD-SWAP-LIN", ⟨some 1, some 100⟩)]
          ["P1-USD-SWAP-LIN", "P2-USD-SWAP-LIN"] 7 (7/10)).toFinset).card :=
  ⟨by decide,
   claim_C5 [("E1-USD-SWAP-LIN", ⟨some 1, some 100⟩)]
     ["P1-USD-SWAP-LIN", "P2-USD-SWAP-LIN"] 7 (7/10) (by decide)⟩

/-- Counterexample to C3 as stated: a usable snapshot with spread below
the threshold, a flat position and no open orders satisfies the claim's
antecedent, yet the decision is CANCEL_ALL (the narrow-spread rule fires
first), not SKIP. -/
theorem counterexample_C3 :
    check_multiple_orders_same_side "C3-USD-SWAP-LIN" [] = false ∧
    calculate_spread_percentage narrowCoin < runConfig.min_spread_threshold ∧
    manage_coin_orders runConfig [] "C3-USD-SWAP-LIN" narrowCoin 0 =
      Decision.cancelAll ∧
    manage_coin_orders runConfig [] "C3-USD-SWAP-LIN" narrowCoin 0 ≠
      Decision.skip := by
  refine ⟨by decide, ?_, ?_, ?_⟩
  · norm_num [calculate_spread_percentage, truthy, fval, narrowCoin, runConfig]
  · norm_num [manage_coin_orders, check_multiple_orders_same_side,
      should_cancel_orders_due_to_narrow_spread, calculate_spread_percentage,
      truthy, fval, narrowCoin, runConfig]
  · norm_num [manage_coin_orders, check_multiple_orders_same_side,
      should_cancel_orders_due_to_narrow_spread, calculate_spread_percentage,
      truthy, fval, narrowCoin, runConfig]
    decide

/-- C3 (amended): with no duplicate same-side orders AND the narrow-spread
cancellation not firing (the position is nonzero, or the spread is not
below the threshold), if the snapshot is unusable, or the spread is below
the threshold, or neither side's distance from the index exceeds the
minimum, then the decision is SKIP. -/
theorem claim_C3 (cfg : Config) (working_orders : List WOrder)
    (market_code : String) (c : CoinData) (position : ℚ)
    (h1 : check_multiple_orders_same_side market_code working_orders = false)
    (h2 : position ≠ 0 ∨
      ¬ calculate_spread_percentage c < cfg.min_spread_threshold)
    (h3 : ¬ (truthy c.bestAsk = true ∧ truthy c.bestBid = true ∧
             truthy c.indexPrice = true) ∨
      calculate_spread_percentage c < cfg.min_spread_threshold ∨
      (calculate_distance_from_index (fval c.bestAsk) (fval c.indexPrice) ≤
          cfg.min_distance_from_index ∧
       calculate_distance_from_index (fval c.bestBid) (fval c.indexPrice) ≤
          cfg.min_distance_from_index)) :
    manage_coin_orders cfg working_orders market_code c position =
      Decision.skip := by
  have hmm : should_make_market cfg c = false := by
    unfold should_make_market
    by_cases hg : (truthy c.bestAsk && truthy c.bestBid &&
        truthy c.indexPrice) = true
    · rw [if_neg (not_not_intro hg)]
      by_cases hsp : calculate_spread_percentage c < cfg.min_spread_threshold
      · rw [if_pos hsp]
      · rw [if_neg hsp]
        rcases h3 with h | h | h
        · exact absurd (by simpa [Bool.and_eq_true, and_assoc] using hg) h
        · exact absurd h hsp
        · simp only [decide_eq_false_iff_not, not_or, not_lt]
          exact ⟨h.1, h.2⟩
    · rw [if_pos hg]
  have hc : should_cancel_orders_due_to_narrow_spread cfg position c
      = false := by
    unfold should_cancel_orders_due_to_narrow_spread
    rcases h2 with h | h
    · rw [if_pos h]
    · by_cases hp : position ≠ 0
      · rw [if_pos hp]
      · rw [if_neg hp]
        simpa using h
  simp [manage_coin_orders, h1, hc, hmm]

/-- Witness for the amended C3: a snapshot with a wide spread but a
missing index price, flat position and no open orders is skipped. -/
theorem witness_C3 :
    check_multiple_orders_same_side "C3W-USD-SWAP-LIN" [] = false ∧
    manage_coin_orders runConfig [] "C3W-USD-SWAP-LIN"
      ⟨some 101, some 99, none⟩ 0 = Decision.skip :=
  ⟨by decide,
   claim_C3 runConfig [] "C3W-USD-SWAP-LIN" ⟨some 101, some 99, none⟩ 0
     (by decide)
     (Or.inr (by norm_num [calculate_spread_percentage, truthy, fval,
       runConfig]))
     (Or.inl (by simp [truthy]))⟩

/-- Counterexample to C4 as stated: spread 0.3% (below the 0.6%
threshold), flat position and no open orders: the claim says the decision
is SKIP when no orders exist, but the code issues CANCEL_ALL
unconditionally in this branch. -/
theorem counterexample_C4 :
    check_multiple_orders_same_side "C4-USD-SWAP-LIN" [] = false ∧
    calculate_spread_percentage c4Coin < runConfig.min_spread_threshold ∧
    manage_coin_orders runConfig [] "C4-USD-SWAP-LIN" c4Coin 0 =
      Decision.cancelAll ∧
    manage_coin_orders runConfig [] "C4-USD-SWAP-LIN" c4Coin 0 ≠
      Decision.skip := by
  refine ⟨by decide, ?_, ?_, ?_⟩
  · norm_num [calculate_spread_percentage, truthy, fval, c4Coin, runConfig]
  · norm_num [manage_coin_orders, check_multiple_orders_same_side,
      should_cancel_orders_due_to_narrow_spread, calculate_spread_percentage,
      truthy, fval, c4Coin, runConfig]
  · norm_num [manage_coin_orders, check_multiple_orders_same_side,
      should_cancel_orders_due_to_narrow_spread, calculate_spread_percentage,
      truthy, fval, c4Coin, runConfig]
    decide

/-- C4 (amended): with no duplicate same-side orders, a flat position and
a spread below the threshold always yield CANCEL_ALL — whether or not any
order is actually open (the code cancels unconditionally); and a nonzero
position always exempts the instrument from the narrow-spread
cancellation. -/
theorem claim_C4 (cfg : Config) (working_orders : List WOrder)
    (market_code : String) (c : CoinData) (position : ℚ) :
    (check_multiple_orders_same_side market_code working_orders = false →
      position = 0 →
      calculate_spread_percentage c < cfg.min_spread_threshold →
      manage_coin_orders cfg working_orders market_code c position =
        Decision.cancelAll) ∧
    (position ≠ 0 →
      should_cancel_orders_due_to_narrow_spread cfg position c = false) := by
  constructor
  · intro h1 hp hs
    have hc : should_cancel_orders_due_to_narrow_spread cfg position c
        = true := by
      unfold should_cancel_orders_due_to_narrow_spread
      rw [if_neg (by simpa using hp)]
      simpa using hs
    simp [manage_coin_orders, h1, hc]
  · intro hp
    unfold should_cancel_orders_due_to_narrow_spread
    rw [if_pos hp]

/-- Witness for the amended C4: the 0.3%-spread snapshot with a flat
position and no orders is cancelled; with a long position of 1 the
narrow-spread rule does not fire. -/
theorem witness_C4 :
    manage_coin_orders runConfig [] "C4W-USD-SWAP-LIN" c4Coin 0 =
      Decision.cancelAll ∧
    should_cancel_orders_due_to_narrow_spread runConfig 1 c4Coin = false :=
  ⟨(claim_C4 runConfig [] "C4W-USD-SWAP-LIN" c4Coin 0).1 (by decide) rfl
     (by norm_num [calculate_spread_percentage, truthy, fval, c4Coin,
       runConfig]),
   (claim_C4 runConfig [] "C4W-USD-SWAP-LIN" c4Coin 1).2 (by norm_num)⟩

/-- C6: with a non-negative configured notional, the order quantity is
never negative, it is exactly 0 for a non-positive price, and for every
strictly positive price the placed dollar value quantity × price never
exceeds the notional (the conversion truncates downward). -/
theorem claim_C6 (cfg : Config) (price : ℚ)
    (hV : 0 ≤ cfg.order_value_usd) :
    (0 < price →
      calculate_order_quantity cfg price * price ≤ cfg.order_value_usd) ∧
    0 ≤ calculate_order_quantity cfg price ∧
    (price ≤ 0 → calculate_order_quantity cfg price = 0) := by
  unfold calculate_order_quantity
  by_cases hp : price ≤ 0
  · rw [if_pos hp]
    exact ⟨fun h => absurd h (not_lt.mpr hp), le_refl 0, fun _ => rfl⟩
  · rw [if_neg hp]
    push_neg at hp
    refine ⟨fun _ => ?_, ?_, fun h => absurd h (not_le.mpr hp)⟩
    · have h1 : (⌊cfg.order_value_usd / price * 1000⌋ : ℚ) ≤
          cfg.order_value_usd / price * 1000 := Int.floor_le _
      have h2 : (⌊cfg.order_value_usd / price * 1000⌋ : ℚ) / 1000 * price ≤
          cfg.order_value_usd / price * 1000 / 1000 * price := by
        apply mul_le_mul_of_nonneg_right _ (le_of_lt hp)
        exact div_le_div_of_nonneg_right h1 (by norm_num)
      have h3 : cfg.order_value_usd / price * 1000 / 1000 * price =
          cfg.order_value_usd := by
        field_simp
        ring
      linarith
    · have h0 : (0 : ℤ) ≤ ⌊cfg.order_value_usd / price * 1000⌋ :=
        Int.floor_nonneg.mpr (by positivity)
      have h0' : (0 : ℚ) ≤ (⌊cfg.order_value_usd / price * 1000⌋ : ℚ) := by
        exact_mod_cast h0
      exact div_nonneg h0' (by norm_num)

/-- Witness for C6: at price 2 with the running configuration, the placed
value 2 × quantity stays at or below 5.5 and the quantity is
non-negative. -/
theorem witness_C6 :
    0 ≤ runConfig.order_value_usd ∧
    calculate_order_quantity runConfig 2 * 2 ≤ runConfig.order_value_usd ∧
    0 ≤ calculate_order_quantity runConfig 2 :=
  ⟨by norm_num [runConfig],
   (claim_C6 runConfig 2 (by norm_num [runConfig])).1 (by norm_num),
   (claim_C6 runConfig 2 (by norm_num [runConfig])).2.1⟩

/-- C7: an instrument reaching the order-placement step with a nonzero
position gets exactly one order — the closing order: SELL at the best bid
for a long position, BUY at the best ask for a short one, with quantity
the absolute position size; no two-sided quotes are placed. -/
theorem claim_C7 (cfg : Config) (c : CoinData) (position : ℚ)
    (h : position ≠ 0) :
    place_market_making_orders cfg c position =
      [⟨(if 0 < position then Side.SELL else Side.BUY),
        (if 0 < position then fval c.bestBid else fval c.bestAsk),
        |position|⟩] := by
  unfold place_market_making_orders place_closing_order
  rw [if_pos h, if_neg h]
  split_ifs with hp <;> rfl

/-- Witness for C7: a long position of 2 on the worked-example snapshot
yields the single closing order. -/
theorem witness_C7 :
    place_market_making_orders runConfig exCoin 2 =
      [⟨(if (0 : ℚ) < 2 then Side.SELL else Side.BUY),
        (if (0 : ℚ) < 2 then fval exCoin.bestBid else fval exCoin.bestAsk),
        |(2 : ℚ)|⟩] :=
  claim_C7 runConfig exCoin 2 (by norm_num)

/-- C8: each quote is one tick inside the touch (buy = bid + bid × tick
when the bid clears the minimum distance, sell = ask − ask × tick when
the ask does), and the spec's worked example holds: snapshot
bestAsk 101 / bestBid 99 / indexPrice 100 with the running configuration
gives QUOTE with buy price 99.099 at quantity 0.055 and sell price
100.899 (at quantity 0.054). -/
theorem claim_C8 :
    (∀ (cfg : Config) (c : CoinData),
      (calculate_distance_from_index (fval c.bestBid) (fval c.indexPrice) >
          cfg.min_distance_from_index →
        (calculate_market_making_prices cfg c).1 =
          some (fval c.bestBid + fval c.bestBid * cfg.tick_size)) ∧
      (calculate_distance_from_index (fval c.bestAsk) (fval c.indexPrice) >
          cfg.min_distance_from_index →
        (calculate_market_making_prices cfg c).2 =
          some (fval c.bestAsk - fval c.bestAsk * cfg.tick_size))) ∧
    manage_coin_orders runConfig [] "EX-USD-SWAP-LIN" exCoin 0 =
      Decision.place [⟨Side.BUY, 99.099, 0.055⟩, ⟨Side.SELL, 100.899, 0.054⟩] ∧
    calculate_order_quantity runConfig 99.099 = 0.055 := by
  refine ⟨fun cfg c => ⟨fun h => ?_, fun h => ?_⟩, ?_, ?_⟩
  · simp [calculate_market_making_prices, h]
  · simp [calculate_market_making_prices, h]
  · norm_num [manage_coin_orders, check_multiple_orders_same_side,
      should_cancel_orders_due_to_narrow_spread, should_make_market,
      place_market_making_orders, calculate_market_making_prices,
      calculate_order_quantity, calculate_spread_percentage,
      calculate_distance_from_index, truthy, fval, exCoin, runConfig]
  · norm_num [calculate_order_quantity, runConfig]

/-- Witness for C8: the bid side of the worked example clears the minimum
distance, so the buy quote is one tick above the bid. -/
theorem witness_C8 :
    (calculate_market_making_prices runConfig exCoin).1 =
      some (fval exCoin.bestBid + fval exCoin.bestBid * runConfig.tick_size) :=
  (claim_C8.1 runConfig exCoin).1
    (by norm_num [calculate_distance_from_index, fval, exCoin, runConfig])

/-- C9: the hand-off loader is total (modelled as a total function — the
Python body is wrapped in try/except and returns on every path): an
absent file yields no data; an unchanged modification time returns the
cached data without touching the state or reading the content; a parse
failure yields no data (and does not advance the cached mtime); and
unrecognized formats (a non-dict value, or an empty dict) yield no data
for the cycle. -/
theorem claim_C9 (s : LoaderState) (m : ℤ) (c : FileContent) :
    load_market_data s FileView.absent = (none, s) ∧
    (m ≤ s.last_file_modified →
      load_market_data s (FileView.present m c) = (s.last_market_data, s)) ∧
    (s.last_file_modified < m →
      load_market_data s (FileView.present m FileContent.unparsable) =
        (none, s)) ∧
    (s.last_file_modified < m → ∀ xs : List RVal,
      (load_market_data s
        (FileView.present m (FileContent.parsed (RVal.vlist xs)))).1 =
          none) ∧
    (s.last_file_modified < m →
      (load_market_data s
        (FileView.present m (FileContent.parsed (RVal.vdict [])))).1 =
          none) := by
  refine ⟨rfl, fun h => ?_, fun h => ?_, fun h xs => ?_, fun h => ?_⟩
  · simp [load_market_data, if_pos h]
  · simp [load_market_data, if_neg (not_le.mpr h)]
  · simp [load_market_data, if_neg (not_le.mpr h)]
  · simp [load_market_data, if_neg (not_le.mpr h), dlookup]

/-- Witness for C9: a concrete loader state exercises each branch. -/
theorem witness_C9 :
    load_market_data ⟨0, some []⟩ FileView.absent = (none, ⟨0, some []⟩) ∧
    load_market_data ⟨0, some []⟩ (FileView.present 0 FileContent.unparsable) =
      (some [], ⟨0, some []⟩) ∧
    load_market_data ⟨0, some []⟩ (FileView.present 1 FileContent.unparsable) =
      (none, ⟨0, some []⟩) ∧
    (load_market_data ⟨0, some []⟩
      (FileView.present 1 (FileContent.parsed (RVal.vlist [])))).1 = none ∧
    (load_market_data ⟨0, some []⟩
      (FileView.present 1 (FileContent.parsed (RVal.vdict [])))).1 = none :=
  ⟨(claim_C9 ⟨0, some []⟩ 0 FileContent.unparsable).1,
   (claim_C9 ⟨0, some []⟩ 0 FileContent.unparsable).2.1 (by norm_num),
   (claim_C9 ⟨0, some []⟩ 1 FileContent.unparsable).2.2.1 (by norm_num),
   (claim_C9 ⟨0, some []⟩ 1 FileContent.unparsable).2.2.2.1 (by norm_num) [],
   (claim_C9 ⟨0, some []⟩ 1 FileContent.unparsable).2.2.2.2 (by norm_num)⟩

/-- C10: the quoting path never submits a non-positive quantity: the
quantity is 0 for any non-positive price, and every order emitted by
place_market_making_orders (quotes as well as closing orders) has a
strictly positive quantity, so place_oxfun_order is never reached from it
with quantity ≤ 0. -/
theorem claim_C10 (cfg : Config) (c : CoinData) (position : ℚ) :
    (∀ p : ℚ, p ≤ 0 → calculate_order_quantity cfg p = 0) ∧
    (∀ o ∈ place_market_making_orders cfg c position, 0 < o.quantity) := by
  constructor
  · intro p hp
    simp [calculate_order_quantity, if_pos hp]
  · intro o ho
    unfold place_market_making_orders at ho
    by_cases h : position ≠ 0
    · rw [if_pos h] at ho
      unfold place_closing_order at ho
      rw [if_neg h] at ho
      have habs : 0 < |position| := abs_pos.mpr h
      split_ifs at ho
      · simp only [List.mem_singleton] at ho
        rw [ho]
        exact habs
      · simp only [List.mem_singleton] at ho
        rw [ho]
        exact habs
    · rw [if_neg h] at ho
      simp only [List.mem_append] at ho
      rcases ho with h1 | h1
      · revert h1
        rcases hb : (calculate_market_making_prices cfg c).1 with _ | bp
        · intro h1
          simp at h1
        · intro h1
          simp only [] at h1
          split_ifs at h1 with hq
          · simp only [List.mem_singleton] at h1
            rw [h1]
            exact hq
          · simp at h1
      · revert h1
        rcases hb : (calculate_market_making_prices cfg c).2 with _ | sp
        · intro h1
          simp at h1
        · intro h1
          simp only [] at h1
          split_ifs at h1 with hq
          · simp only [List.mem_singleton] at h1
            rw [h1]
            exact hq
          · simp at h1

/-- Witness for C10: a non-positive price gives quantity 0, and the buy
quote of the worked example, an order actually emitted, has positive
quantity. -/
theorem witness_C10 :
    calculate_order_quantity runConfig (-1) = 0 ∧
    (0 : ℚ) < (PlacedOrder.mk Side.BUY 99.099 0.055).quantity :=
  ⟨(claim_C10 runConfig exCoin 0).1 (-1) (by norm_num),
   (claim_C10 runConfig exCoin 0).2 ⟨Side.BUY, 99.099, 0.055⟩
     (by norm_num [place_market_making_orders, calculate_market_making_prices,
       calculate_order_quantity, calculate_distance_from_index, fval, exCoin,
       runConfig])⟩
